import Mathlib

/-!
Verification of the gzip `Compressor` of `src/network/compression.go`.

The file shallow-embeds the Go code: byte slices become `List Nat`, the
mutable `gzipCompressor` struct becomes an explicit state record threaded
through each operation, and fallible operations return `Except`.  The
external codec (Go library `compress/gzip`, not part of this repository)
is modelled from the spec as a concrete container format: a 10-byte
header carrying the gzip magic bytes, the payload, and an 8-byte trailer
holding a checksum and the payload length modulo 2^32.
-/

/-- Errors surfaced by the decode path.  `eof` models `io.EOF`,
`unexpectedEOF` models `io.ErrUnexpectedEOF` (truncated stream),
`errHeader` models `gzip.ErrHeader` (malformed header), and
`errChecksum` models `gzip.ErrChecksum` (checksum or trailer mismatch).
All of them are decode errors in the sense of the spec. -/
inductive GzipError where
  | eof
  | unexpectedEOF
  | errHeader
  | errChecksum
deriving DecidableEq, Repr

/-- Four little-endian bytes of a 32-bit quantity. -/
def le32 (n : Nat) : List Nat :=
  [n % 256, n / 256 % 256, n / 65536 % 256, n / 16777216 % 256]

/-- Modelled from the spec: the checksum the codec stores in the trailer
(the spec requires a length and checksum trailer; the concrete checksum
function of the external codec is opaque to this repository, so a simple
byte sum modulo 2^32 stands in for it). -/
def byteChecksum (msg : List Nat) : Nat :=
  (msg.foldl (fun a b => a + b) 0) % 4294967296

/-- Modelled from the spec: the fixed 10-byte gzip member header written
by the external encoder (magic bytes 31 and 139, compression method 8,
empty flags, zero mtime, default extra flags and unknown OS). -/
def gzipHeader : List Nat :=
  [31, 139, 8, 0, 0, 0, 0, 0, 0, 255]

/-- Modelled from the spec: the external gzip encoder.  It frames the
payload in the standard container format: magic header, payload bytes,
then a trailer with the checksum and the length modulo 2^32, each as
four little-endian bytes. -/
def gzipEncode (msg : List Nat) : List Nat :=
  gzipHeader ++ msg ++ (le32 (byteChecksum msg) ++ le32 (msg.length % 4294967296))

/-- Modelled from the spec: the header read performed by the external
decoder when it is bound to an input (`gzip.NewReader` and
`gzip.Reader.Reset` both read the header eagerly).  An empty input
signals end of stream, an input shorter than the 10-byte header is a
truncated stream, and wrong magic or method bytes are a malformed
header. -/
def gzipHeaderCheck (msg : List Nat) : Except GzipError Unit :=
  if msg.length = 0 then .error .eof
  else if msg.length < 10 then .error .unexpectedEOF
  else if msg.take 4 = [31, 139, 8, 0] then .ok ()
  else .error .errHeader

/-- Modelled from the spec: reading the body of a stream whose header
already validated.  The bytes after the header must hold at least the
8-byte trailer; the trailer must match the checksum and length of the
payload, otherwise the stream is corrupt. -/
def gzipReadBody (msg : List Nat) : Except GzipError (List Nat) :=
  let body := msg.drop 10
  if body.length < 8 then .error .unexpectedEOF
  else
    let payload := body.take (body.length - 8)
    let trailer := body.drop (body.length - 8)
    if trailer = le32 (byteChecksum payload) ++ le32 (payload.length % 4294967296)
    then .ok payload
    else .error .errChecksum

/-- Modelled from the spec: the full decode of one encoded stream —
header check, then body and trailer validation.  An input is valid
encoded data for the codec exactly when this returns `.ok`. -/
def gzipDecode (msg : List Nat) : Except GzipError (List Nat) :=
  match gzipHeaderCheck msg with
  | .error e => .error e
  | .ok _ => gzipReadBody msg

/-- `compressionThresholdBytes` of src/network/compression.go line 12. -/
def compressionThresholdBytes : Nat := 128

/-- State of a `gzipCompressor` (src/network/compression.go lines 22-31).
`writeBuffer` is the contents of the `bytes.Buffer`, `writerPending` the
bytes written through the `gzip.Writer` since its last reset and not yet
flushed, `bytesReaderData` the data currently bound in the
`bytes.Reader`, and `readerStoredErr` the error stored inside the
`gzip.Reader` by its last header read (a stored `io.EOF` makes later
reads report a clean end of stream). -/
structure gzipCompressor where
  writerInitialised : Bool
  readerInitialised : Bool
  writeBuffer : List Nat
  writerPending : List Nat
  bytesReaderData : List Nat
  readerStoredErr : Option GzipError
deriving DecidableEq, Repr

/-- `NewCompressor` (src/network/compression.go lines 108-111): the Go
zero value of the struct, both halves uninitialised. -/
def NewCompressor : gzipCompressor :=
  { writerInitialised := false
    readerInitialised := false
    writeBuffer := []
    writerPending := []
    bytesReaderData := []
    readerStoredErr := none }

/-- `resetWriter` (src/network/compression.go lines 78-88).  First call
constructs a fresh buffer and encoder and records the write side as
initialised; later calls empty the existing buffer and reset the
existing encoder onto it.  Observationally both branches leave an empty
buffer and an encoder with no pending input. -/
def gzipCompressor.resetWriter (g : gzipCompressor) : gzipCompressor :=
  if !g.writerInitialised then
    { g with writeBuffer := [], writerPending := [], writerInitialised := true }
  else
    { g with writeBuffer := [], writerPending := [] }

/-- `g.gzipWriter.Write(msg)` inside `Compress`: the encoder accumulates
the input in memory; a write can only fail if the underlying writer
fails, and the underlying `bytes.Buffer` never fails, so this returns
`.ok`. -/
def gzipCompressor.gzipWriterWrite (g : gzipCompressor) (msg : List Nat) :
    Except GzipError Unit × gzipCompressor :=
  (.ok (), { g with writerPending := g.writerPending ++ msg })

/-- The underlying `bytes.Buffer.Write`: per the Go library contract it
always succeeds (the returned error is always nil) and appends to the
buffer. -/
def bytesBufferWrite (buf msg : List Nat) : Except GzipError (List Nat) :=
  .ok (buf ++ msg)

/-- `g.gzipWriter.Close()` inside `Compress`: flush the encoded stream
for the pending input into the underlying buffer, surfacing any error of
the underlying write. -/
def gzipCompressor.gzipWriterClose (g : gzipCompressor) :
    Except GzipError Unit × gzipCompressor :=
  match bytesBufferWrite g.writeBuffer (gzipEncode g.writerPending) with
  | .error e => (.error e, g)
  | .ok newBuf => (.ok (), { g with writeBuffer := newBuf })

/-- `Compress` (src/network/compression.go lines 34-46): reset the write
side, write the message through the encoder, close the encoder, then
return a fresh copy of the buffer contents. -/
def gzipCompressor.Compress (g : gzipCompressor) (msg : List Nat) :
    Except GzipError (List Nat) × gzipCompressor :=
  let g := g.resetWriter
  match g.gzipWriterWrite msg with
  | (.error e, g) => (.error e, g)
  | (.ok _, g) =>
    match g.gzipWriterClose with
    | (.error e, g) => (.error e, g)
    | (.ok _, g) =>
      let cmpBufferBytes := g.writeBuffer
      let cmpBytes := cmpBufferBytes
      (.ok cmpBytes, g)

/-- `resetReader` (src/network/compression.go lines 90-105).  When the
read side is not initialised it binds a fresh `bytes.Reader` to the
message and constructs a fresh decoder, whose eager header read can
fail; mirroring the source, the `readerInitialised` flag is NOT set in
that branch.  Otherwise it rebinds the existing reader and resets the
existing decoder, tolerating an `io.EOF` from the reset as non-fatal
(the decoder stores that error internally). -/
def gzipCompressor.resetReader (g : gzipCompressor) (msg : List Nat) :
    Except GzipError Unit × gzipCompressor :=
  if !g.readerInitialised then
    match gzipHeaderCheck msg with
    | .error e => (.error e, { g with bytesReaderData := msg })
    | .ok _ => (.ok (), { g with bytesReaderData := msg, readerStoredErr := none })
  else
    match gzipHeaderCheck msg with
    | .error e =>
      if e = .eof then
        (.ok (), { g with bytesReaderData := msg, readerStoredErr := some .eof })
      else
        (.error e, { g with bytesReaderData := msg, readerStoredErr := some e })
    | .ok _ => (.ok (), { g with bytesReaderData := msg, readerStoredErr := none })

/-- `io.ReadAll(g.gzipReader)` inside `Decompress`: a stored `io.EOF`
makes the read report a clean, empty end of stream; otherwise the
decoder decodes the bound data to completion, validating the trailer. -/
def gzipCompressor.gzipReaderReadAll (g : gzipCompressor) :
    Except GzipError (List Nat) :=
  match g.readerStoredErr with
  | some .eof => .ok []
  | some e => .error e
  | none => gzipReadBody g.bytesReaderData

/-- `Decompress` (src/network/compression.go lines 49-67): reset the
read side onto the message, read the decoder to completion, close it
(which cannot fail after a completed read), and return a fresh copy of
the decoded bytes. -/
def gzipCompressor.Decompress (g : gzipCompressor) (msg : List Nat) :
    Except GzipError (List Nat) × gzipCompressor :=
  match g.resetReader msg with
  | (.error e, g) => (.error e, g)
  | (.ok _, g) =>
    match g.gzipReaderReadAll with
    | .error e => (.error e, g)
    | .ok data =>
      let decompData := data
      (.ok decompData, g)

/-- `IsDecompressable` (src/network/compression.go lines 69-72). -/
def gzipCompressor.IsDecompressable (_ : gzipCompressor) (msg : List Nat) : Bool :=
  msg.length > 10

/-- `IsCompressable` (src/network/compression.go lines 74-76). -/
def gzipCompressor.IsCompressable (_ : gzipCompressor) (msg : List Nat) : Bool :=
  msg.length > compressionThresholdBytes

/-! ### List helper lemmas -/

theorem gz_take_append (n : Nat) (l₁ l₂ : List Nat) (h : n ≤ l₁.length) :
    (l₁ ++ l₂).take n = l₁.take n := by
  induction l₁ generalizing n with
  | nil =>
    have : n = 0 := Nat.le_zero.mp h
    simp [this]
  | cons a t ih =>
    cases n with
    | zero => rfl
    | succ m =>
      simp only [List.cons_append, List.take_succ_cons]
      rw [ih m (by simpa using h)]

theorem gz_take_len_append (l₁ l₂ : List Nat) : (l₁ ++ l₂).take l₁.length = l₁ := by
  induction l₁ with
  | nil => rfl
  | cons a t ih => simp only [List.cons_append, List.length_cons, List.take_succ_cons, ih]

theorem gz_drop_len_append (l₁ l₂ : List Nat) : (l₁ ++ l₂).drop l₁.length = l₂ := by
  induction l₁ with
  | nil => rfl
  | cons a t ih =>
    simp only [List.cons_append, List.length_cons, List.drop_succ_cons]
    exact ih

/-! ### Behaviour of the modelled codec on encoder output -/

theorem gzipEncode_length (b : List Nat) : (gzipEncode b).length = b.length + 18 := by
  simp [gzipEncode, gzipHeader, le32]

theorem gzipHeaderCheck_encode (b : List Nat) : gzipHeaderCheck (gzipEncode b) = .ok () := by
  have hlen := gzipEncode_length b
  have htake : (gzipEncode b).take 4 = [31, 139, 8, 0] := by
    rw [gzipEncode, List.append_assoc, gz_take_append 4 gzipHeader _ (by decide)]
    rfl
  rw [gzipHeaderCheck, hlen, htake]
  rw [if_neg (by omega), if_neg (by omega), if_pos rfl]

theorem gzipReadBody_encode (b : List Nat) : gzipReadBody (gzipEncode b) = .ok b := by
  have hdrop : (gzipEncode b).drop 10
      = b ++ (le32 (byteChecksum b) ++ le32 (b.length % 4294967296)) := by
    rw [gzipEncode, List.append_assoc]
    exact gz_drop_len_append gzipHeader _
  have hl : (b ++ (le32 (byteChecksum b) ++ le32 (b.length % 4294967296))).length
      = b.length + 8 := by
    simp [le32]
  have htk : (b ++ (le32 (byteChecksum b) ++ le32 (b.length % 4294967296))).take
        (b.length + 8 - 8) = b := by
    rw [Nat.add_sub_cancel]
    exact gz_take_len_append b _
  have hdr : (b ++ (le32 (byteChecksum b) ++ le32 (b.length % 4294967296))).drop
        (b.length + 8 - 8)
      = le32 (byteChecksum b) ++ le32 (b.length % 4294967296) := by
    rw [Nat.add_sub_cancel]
    exact gz_drop_len_append b _
  simp only [gzipReadBody, hdrop, hl, htk, hdr]
  simp

theorem gzipDecode_encode (b : List Nat) : gzipDecode (gzipEncode b) = .ok b := by
  simp [gzipDecode, gzipHeaderCheck_encode, gzipReadBody_encode]

/-! ### Behaviour of Compress and Decompress -/

theorem compress_eq (g : gzipCompressor) (msg : List Nat) :
    g.Compress msg
      = (.ok (gzipEncode msg),
         { g with writerInitialised := true, writeBuffer := gzipEncode msg,
                  writerPending := msg }) := by
  cases hw : g.writerInitialised <;>
    simp [gzipCompressor.Compress, gzipCompressor.resetWriter,
      gzipCompressor.gzipWriterWrite, gzipCompressor.gzipWriterClose,
      bytesBufferWrite, hw]

theorem decompress_not_init (g : gzipCompressor) (msg : List Nat)
    (h : g.readerInitialised = false) :
    (g.Decompress msg).1 = gzipDecode msg := by
  cases hh : gzipHeaderCheck msg with
  | error e =>
    simp [gzipCompressor.Decompress, gzipCompressor.resetReader, gzipDecode, h, hh]
  | ok u =>
    cases hb : gzipReadBody msg <;>
      simp [gzipCompressor.Decompress, gzipCompressor.resetReader,
        gzipCompressor.gzipReaderReadAll, gzipDecode, h, hh, hb]

theorem decompress_encode (g : gzipCompressor) (b : List Nat) :
    (g.Decompress (gzipEncode b)).1 = .ok b := by
  cases hr : g.readerInitialised with
  | false => rw [decompress_not_init g _ hr, gzipDecode_encode]
  | true =>
    simp [gzipCompressor.Decompress, gzipCompressor.resetReader,
      gzipCompressor.gzipReaderReadAll, hr, gzipHeaderCheck_encode,
      gzipReadBody_encode]

/-! ### Claims -/

/-- C1: for every byte sequence `b`, calling `Compress b` and then
`Decompress` on its result on the same compressor instance returns
exactly `b`. -/
theorem compress_then_decompress_roundtrip (g : gzipCompressor) (b c : List Nat)
    (h : (g.Compress b).1 = .ok c) :
    (((g.Compress b).2).Decompress c).1 = .ok b := by
  rw [compress_eq] at h
  simp only [Except.ok.injEq] at h
  subst h
  exact decompress_encode _ b

/-- Witness for C1 at the two-byte input `[65, 66]`. -/
theorem compress_then_decompress_roundtrip_witness :
    (NewCompressor.Compress [65, 66]).1 = .ok (gzipEncode [65, 66]) ∧
    (((NewCompressor.Compress [65, 66]).2).Decompress (gzipEncode [65, 66])).1
      = .ok [65, 66] :=
  ⟨rfl, compress_then_decompress_roundtrip NewCompressor [65, 66] (gzipEncode [65, 66]) rfl⟩

/-- C2 counterexample: an input of length exactly 10 is at the minimum
gzip header length, yet `IsDecompressable` returns false for it, while
the claim requires true for inputs at or above that length. -/
theorem isdecompressable_false_at_header_length :
    (List.replicate 10 (0 : Nat)).length = 10 ∧
    NewCompressor.IsDecompressable (List.replicate 10 (0 : Nat)) = false :=
  ⟨rfl, rfl⟩

/-- C2 (amended): `IsDecompressable` returns false for inputs of length
at most 10 and true for inputs of length strictly greater than 10. -/
theorem isdecompressable_iff_gt_ten (g : gzipCompressor) (msg : List Nat) :
    (msg.length ≤ 10 → g.IsDecompressable msg = false) ∧
    (10 < msg.length → g.IsDecompressable msg = true) := by
  refine ⟨fun h => ?_, fun h => ?_⟩ <;>
    simp only [gzipCompressor.IsDecompressable, gt_iff_lt,
      decide_eq_false_iff_not, decide_eq_true_eq, Nat.not_lt] <;>
    omega

/-- Witness for the amended C2 at lengths 10 and 11. -/
theorem isdecompressable_iff_gt_ten_witness :
    NewCompressor.IsDecompressable (List.replicate 10 (1 : Nat)) = false ∧
    NewCompressor.IsDecompressable (List.replicate 11 (1 : Nat)) = true :=
  ⟨(isdecompressable_iff_gt_ten NewCompressor _).1 (by decide),
   (isdecompressable_iff_gt_ten NewCompressor _).2 (by decide)⟩

/-- C3: the write side conforms to the claimed state machine (after a
`Compress` the write half is bound), but the read side does not:
`resetReader` never sets `readerInitialised`, so even after a successful
`Decompress` the read half is still recorded as uninitialised, and the
next call constructs fresh codec state instead of performing the claimed
reset-and-rebind of the existing decoder. -/
theorem reader_flag_never_set :
    ((NewCompressor.Compress [65]).2).writerInitialised = true ∧
    ((NewCompressor.Decompress (gzipEncode [65])).2).readerInitialised = false ∧
    ((((NewCompressor.Decompress (gzipEncode [65])).2).Decompress
        (gzipEncode [66])).2).readerInitialised = false :=
  ⟨rfl, rfl, rfl⟩

/-- C4: on an input that is not valid encoded data for the codec,
`Decompress` (from any reachable state, i.e. one whose read side is not
yet initialised) fails with exactly the decode error of the codec, and
so never silently returns wrong data. -/
theorem decompress_rejects_invalid (g : gzipCompressor) (msg : List Nat) (e : GzipError)
    (hr : g.readerInitialised = false) (hinv : gzipDecode msg = .error e) :
    (g.Decompress msg).1 = .error e := by
  rw [decompress_not_init g msg hr, hinv]

/-- Witness for C4 on a truncated valid `Compress` output (the encoding
of `[65]` with its last byte cut off). -/
theorem decompress_rejects_invalid_witness :
    NewCompressor.readerInitialised = false ∧
    gzipDecode ((gzipEncode [65]).take 18) = .error .errChecksum ∧
    (NewCompressor.Decompress ((gzipEncode [65]).take 18)).1 = .error .errChecksum :=
  ⟨rfl, rfl, decompress_rejects_invalid NewCompressor ((gzipEncode [65]).take 18)
    .errChecksum rfl rfl⟩

/-- C5: `IsCompressable` returns false for inputs of length at most the
threshold constant (128) and true for inputs of length strictly greater
than it. -/
theorem iscompressable_threshold_boundary (g : gzipCompressor) (msg : List Nat) :
    (msg.length ≤ compressionThresholdBytes → g.IsCompressable msg = false) ∧
    (compressionThresholdBytes < msg.length → g.IsCompressable msg = true) := by
  refine ⟨fun h => ?_, fun h => ?_⟩ <;>
    simp only [compressionThresholdBytes] at h <;>
    simp only [gzipCompressor.IsCompressable, compressionThresholdBytes, gt_iff_lt,
      decide_eq_false_iff_not, decide_eq_true_eq, Nat.not_lt] <;>
    omega

/-- Witness for C5 at lengths 128 (the threshold) and 129. -/
theorem iscompressable_threshold_boundary_witness :
    NewCompressor.IsCompressable (List.replicate 128 (0 : Nat)) = false ∧
    NewCompressor.IsCompressable (List.replicate 129 (0 : Nat)) = true :=
  ⟨(iscompressable_threshold_boundary NewCompressor _).1
      (by norm_num [compressionThresholdBytes, List.length_replicate]),
   (iscompressable_threshold_boundary NewCompressor _).2
      (by norm_num [compressionThresholdBytes, List.length_replicate])⟩

/-- C6: when the read side is already initialised and rebinding the
decoder signals end of stream, `resetReader` tolerates the signal as
non-fatal and returns no error, and the ensuing `Decompress` call does
not fail on account of it (it returns an empty result). -/
theorem reset_eof_nonfatal (g : gzipCompressor) (msg : List Nat)
    (hr : g.readerInitialised = true) (he : gzipHeaderCheck msg = .error .eof) :
    (g.resetReader msg).1 = .ok () ∧ (g.Decompress msg).1 = .ok [] := by
  constructor
  · simp [gzipCompressor.resetReader, hr, he]
  · simp [gzipCompressor.Decompress, gzipCompressor.resetReader,
      gzipCompressor.gzipReaderReadAll, hr, he]

/-- Witness for C6: a compressor whose read side is marked initialised,
rebound to the empty input (which signals end of stream). -/
theorem reset_eof_nonfatal_witness :
    ({ NewCompressor with readerInitialised := true } : gzipCompressor).readerInitialised
      = true ∧
    gzipHeaderCheck [] = .error .eof ∧
    (({ NewCompressor with readerInitialised := true } : gzipCompressor).resetReader []).1
      = .ok () :=
  ⟨rfl, rfl, (reset_eof_nonfatal { NewCompressor with readerInitialised := true } [] rfl rfl).1⟩

/-- C7: compressing the one-byte sequence `[65]`, which is below the
compressable threshold so `IsCompressable` is false for it, still
succeeds, and its result decompresses back to `[65]`: the predicate is
advisory and not enforced by `Compress`. -/
theorem compress_below_threshold_succeeds :
    NewCompressor.IsCompressable [65] = false ∧
    (NewCompressor.Compress [65]).1 = .ok (gzipEncode [65]) ∧
    (((NewCompressor.Compress [65]).2).Decompress (gzipEncode [65])).1 = .ok [65] :=
  ⟨rfl, rfl, rfl⟩

/-- C9: `Compress` never fails: from any state and for any input it
returns the encoded bytes with no error, so the write and close error
branches in it are unreachable (the encoder only writes to an in-memory
buffer, whose writes always succeed). -/
theorem compress_never_fails (g : gzipCompressor) (msg : List Nat) :
    (g.Compress msg).1 = .ok (gzipEncode msg) := by
  rw [compress_eq]

/-- C10: every successful `Compress` output satisfies `IsDecompressable`:
the framed output always exceeds the 10-byte minimum length gate. -/
theorem compress_output_isdecompressable (g : gzipCompressor) (b c : List Nat)
    (h : (g.Compress b).1 = .ok c) :
    g.IsDecompressable c = true := by
  rw [compress_eq] at h
  simp only [Except.ok.injEq] at h
  subst h
  simp only [gzipCompressor.IsDecompressable, gzipEncode_length, gt_iff_lt,
    decide_eq_true_eq]
  omega

/-- Witness for C10 at the empty input. -/
theorem compress_output_isdecompressable_witness :
    (NewCompressor.Compress []).1 = .ok (gzipEncode []) ∧
    NewCompressor.IsDecompressable (gzipEncode []) = true :=
  ⟨rfl, compress_output_isdecompressable NewCompressor [] (gzipEncode []) rfl⟩

/-! ### Allocation-level model for the ownership guarantee

The ownership property of `Compress` and `Decompress` — the returned
bytes are a fresh copy, not aliased to the reusable internal buffer —
is about memory, so the two operations are re-embedded over an explicit
store of byte arrays indexed by addresses.  Allocation hands out fresh
addresses; `bytes.Buffer.Reset` and the flush on `Close` write in place
through the buffer address held by the compressor. -/

structure GoHeap where
  next : Nat
  data : Nat → List Nat

def GoHeap.alloc (h : GoHeap) (v : List Nat) : Nat × GoHeap :=
  (h.next, { next := h.next + 1, data := fun a => if a = h.next then v else h.data a })

def GoHeap.write (h : GoHeap) (a : Nat) (v : List Nat) : GoHeap :=
  { next := h.next, data := fun x => if x = a then v else h.data x }

def emptyHeap : GoHeap := { next := 0, data := fun _ => [] }

/-- Write-side state of a `gzipCompressor` at allocation level: the
flag, the address of the reusable `bytes.Buffer` backing store, and the
input pending inside the encoder. -/
structure gzipCompressorMem where
  writerInitialised : Bool
  writeBufferAddr : Nat
  writerPending : List Nat

def NewCompressorMem : gzipCompressorMem :=
  { writerInitialised := false, writeBufferAddr := 0, writerPending := [] }

/-- `Compress` at allocation level (src/network/compression.go lines
34-46 with `resetWriter`, lines 78-88): reset or construct the buffer in
place, write the message through the encoder, flush the encoded stream
into the buffer on close, then allocate a fresh array and copy the
buffer contents into it (`make` + `copy`, lines 42-44). -/
def CompressMem (h : GoHeap) (g : gzipCompressorMem) (msg : List Nat) :
    Nat × GoHeap × gzipCompressorMem :=
  let p :=
    if !g.writerInitialised then
      let ah := h.alloc []
      (ah.2, { writerInitialised := true, writeBufferAddr := ah.1,
               writerPending := ([] : List Nat) })
    else
      (h.write g.writeBufferAddr [], { g with writerPending := ([] : List Nat) })
  let h := p.1
  let g := p.2
  let g := { g with writerPending := g.writerPending ++ msg }
  let h := h.write g.writeBufferAddr (h.data g.writeBufferAddr ++ gzipEncode g.writerPending)
  let cmpBufferBytes := h.data g.writeBufferAddr
  let ch := h.alloc cmpBufferBytes
  (ch.1, ch.2, g)

/-- `Decompress` at allocation level (src/network/compression.go lines
49-67): on success `io.ReadAll` yields a fresh allocation holding the
decoded bytes, and the final `make` + `copy` (lines 63-64) yields a
second fresh allocation that is returned; no pre-existing allocation is
ever written. -/
def DecompressMem (h : GoHeap) (msg : List Nat) : Option Nat × GoHeap :=
  match gzipDecode msg with
  | .error _ => (none, h)
  | .ok data =>
    let dh := h.alloc data
    let ch := dh.2.alloc (dh.2.data dh.1)
    (some ch.1, ch.2)

theorem compressMem_false_parts (h : GoHeap) (g : gzipCompressorMem) (msg : List Nat)
    (hw : g.writerInitialised = false) :
    (CompressMem h g msg).1 = h.next + 1 ∧
    ((CompressMem h g msg).2.2).writeBufferAddr = h.next ∧
    ((CompressMem h g msg).2.2).writerInitialised = true ∧
    ((CompressMem h g msg).2.1).next = h.next + 2 ∧
    ∀ a, ((CompressMem h g msg).2.1).data a
        = if a = h.next + 1 then gzipEncode msg
          else if a = h.next then gzipEncode msg else h.data a := by
  refine ⟨?_, ?_, ?_, ?_, fun a => ?_⟩ <;>
    simp [CompressMem, GoHeap.alloc, GoHeap.write, hw] <;>
    split_ifs <;> first | rfl | omega

theorem compressMem_true_parts (h : GoHeap) (g : gzipCompressorMem) (msg : List Nat)
    (hw : g.writerInitialised = true) :
    (CompressMem h g msg).1 = h.next ∧
    ((CompressMem h g msg).2.2).writeBufferAddr = g.writeBufferAddr ∧
    ((CompressMem h g msg).2.2).writerInitialised = true ∧
    ((CompressMem h g msg).2.1).next = h.next + 1 ∧
    ∀ a, ((CompressMem h g msg).2.1).data a
        = if a = h.next then gzipEncode msg
          else if a = g.writeBufferAddr then gzipEncode msg else h.data a := by
  refine ⟨?_, ?_, ?_, ?_, fun a => ?_⟩ <;>
    simp [CompressMem, GoHeap.alloc, GoHeap.write, hw] <;>
    split_ifs <;> first | rfl | omega

theorem decompressMem_frame (h : GoHeap) (m : List Nat) (a : Nat) (ha : a < h.next) :
    ((DecompressMem h m).2).data a = h.data a := by
  cases hdec : gzipDecode m with
  | error e => simp [DecompressMem, hdec]
  | ok d =>
    simp only [DecompressMem, hdec, GoHeap.alloc]
    rw [if_neg (by omega), if_neg (by omega)]

theorem decompressMem_ok_addr (h : GoHeap) (m : List Nat) (a : Nat) (hA : GoHeap)
    (hd : DecompressMem h m = (some a, hA)) : a < hA.next := by
  cases hdec : gzipDecode m with
  | error e => simp [DecompressMem, hdec] at hd
  | ok d =>
    simp only [DecompressMem, hdec, GoHeap.alloc, Prod.mk.injEq, Option.some.injEq] at hd
    obtain ⟨ha, hAeq⟩ := hd
    have hn := congrArg GoHeap.next hAeq
    simp only at hn
    omega

/-- C8: the array returned by `Compress` is not the instance's internal
buffer, and its contents survive a second `Compress` on the same
instance with different input unchanged; likewise the array returned by
a successful `Decompress` survives a second `Decompress` unchanged. -/
theorem returned_bytes_independent_ownership
    (h hD : GoHeap) (g : gzipCompressorMem) (b1 b2 m1 m2 : List Nat)
    (a : Nat) (hA : GoHeap)
    (hwf : g.writerInitialised = true → g.writeBufferAddr < h.next)
    (hd : DecompressMem hD m1 = (some a, hA)) :
    (CompressMem h g b1).1 ≠ ((CompressMem h g b1).2.2).writeBufferAddr ∧
    ((CompressMem (CompressMem h g b1).2.1 (CompressMem h g b1).2.2 b2).2.1).data
        (CompressMem h g b1).1
      = ((CompressMem h g b1).2.1).data (CompressMem h g b1).1 ∧
    ((DecompressMem hA m2).2).data a = hA.data a := by
  refine ⟨?_, ?_, decompressMem_frame hA m2 a (decompressMem_ok_addr hD m1 a hA hd)⟩
  · cases hw : g.writerInitialised with
    | false =>
      obtain ⟨h1, h2, -, -, -⟩ := compressMem_false_parts h g b1 hw
      rw [h1, h2]
      omega
    | true =>
      have hlt := hwf hw
      obtain ⟨h1, h2, -, -, -⟩ := compressMem_true_parts h g b1 hw
      rw [h1, h2]
      omega
  · cases hw : g.writerInitialised with
    | false =>
      obtain ⟨h1, h2, h3, h4, h5⟩ := compressMem_false_parts h g b1 hw
      obtain ⟨-, -, -, -, k5⟩ :=
        compressMem_true_parts (CompressMem h g b1).2.1 (CompressMem h g b1).2.2 b2 h3
      rw [h1, k5 (h.next + 1), h2, h4]
      rw [if_neg (by omega), if_neg (by omega)]
    | true =>
      have hlt := hwf hw
      obtain ⟨h1, h2, h3, h4, h5⟩ := compressMem_true_parts h g b1 hw
      obtain ⟨-, -, -, -, k5⟩ :=
        compressMem_true_parts (CompressMem h g b1).2.1 (CompressMem h g b1).2.2 b2 h3
      rw [h1, k5 h.next, h2, h4]
      rw [if_neg (by omega), if_neg (by omega)]

/-- Witness for C8: a fresh heap, an uninitialised compressor, inputs
`[65]` then `[66]`, and the decompression of their encodings. -/
theorem returned_bytes_independent_ownership_witness :
    (CompressMem emptyHeap NewCompressorMem [65]).1
      ≠ ((CompressMem emptyHeap NewCompressorMem [65]).2.2).writeBufferAddr ∧
    ((CompressMem (CompressMem emptyHeap NewCompressorMem [65]).2.1
        (CompressMem emptyHeap NewCompressorMem [65]).2.2 [66]).2.1).data
        (CompressMem emptyHeap NewCompressorMem [65]).1
      = ((CompressMem emptyHeap NewCompressorMem [65]).2.1).data
        (CompressMem emptyHeap NewCompressorMem [65]).1 ∧
    ((DecompressMem (DecompressMem emptyHeap (gzipEncode [65])).2
        (gzipEncode [66])).2).data 1
      = ((DecompressMem emptyHeap (gzipEncode [65])).2).data 1 :=
  returned_bytes_independent_ownership emptyHeap emptyHeap NewCompressorMem
    [65] [66] (gzipEncode [65]) (gzipEncode [66]) 1
    (DecompressMem emptyHeap (gzipEncode [65])).2
    (by intro hcontra; simp [NewCompressorMem] at hcontra)
    (by rfl)
